import Mathlib

/-!
Shallow embedding of recapture.c.

The program streams a multichannel sound file out through jack output ports
while recording the jack input ports into a second file.  Three actors share
one recap_state_t: the realtime jack callback (process), a reader thread and a
writer thread, connected by two single-producer single-consumer ring buffers.

Modelling conventions:
- samples are modelled as Int (the code never does arithmetic on sample
  values; it only copies them and compares one read result against the
  sentinel -1 in next_value), and the ring buffers are modelled at sample
  granularity: one list element corresponds to sample_size = 4 bytes.
  All byte counts in the C code are multiples of sample_size on the paths
  modelled here, and the frame divisions agree:
  (4*s) / (4*c) = s / c for natural numbers.
- each C function keeps its name; static function-local state (the underfill
  flag of reader_body) and the per-thread exit values become explicit fields
  of the Sys record.
- the blocking environment (frames decoded by sf_readf_float, frames accepted
  by sf_writef_float, the per-cycle jack port buffers) is passed in as
  explicit inputs of each step.
-/

namespace Recapture

/-- recap_status_t (recapture.c 57-59). -/
inductive Status
  | IDLE
  | RUNNING
  | DONE
deriving Repr, DecidableEq

/-- Numeric rank of a status along the lifecycle order IDLE, RUNNING, DONE. -/
def ordS : Status → Nat
  | Status.IDLE => 0
  | Status.RUNNING => 1
  | Status.DONE => 2

/-- The FINISHED sentinel returned by an io_thread_fn to end its loop
(recapture.c 232). -/
def FINISHED : Int := -1

/-- The errno value EIO used for fatal codec failures. -/
def eioCode : Int := 5

/-- The errno value EPIPE used for cancellation and dropout failures. -/
def epipeCode : Int := 32

/-- sizeof(jack_default_audio_sample_t): 4 bytes (recapture.c 97). -/
def sample_size : Nat := 4

/-- recap_state_t (recapture.c 65-71): the session state shared by the three
threads. -/
structure RecapState where
  can_play : Bool
  can_capture : Bool
  can_read : Bool
  reading : Status
  playing : Status
deriving Repr, DecidableEq

/-- The read-only configuration fixed in main: channel_count_r,
channel_count_w and the common ring capacity in samples
(jack_ringbuffer_create(sample_size * ring_size) for both rings,
recapture.c 115-119, 474, 499). -/
structure Config where
  cc_r : Nat
  cc_w : Nat
  ring_size : Nat
deriving Repr

/-- Whole-system state: the shared recap_state_t, the two rings with their
owning recap_io_info_t counters (reader_info.underruns), the process
counters of recap_process_info_t (info.underruns, info.overruns), the
static underfill flag of reader_body, and the exit value of each worker
thread (none while its common_thread loop is still running). -/
structure Sys where
  st : RecapState
  reader_ring : List Int
  reader_underruns : Nat
  writer_ring : List Int
  proc_underruns : Nat
  overruns : Nat
  underfill : Nat
  readerExit : Option Int
  writerExit : Option Int
deriving Repr, DecidableEq

/-- jack_ringbuffer_write at sample granularity: appends as many samples as
capacity allows and returns how many were written. -/
def rb_write (cap : Nat) (ring : List Int) (data : List Int) : List Int × Nat :=
  let n := min data.length (cap - ring.length)
  (ring ++ data.take n, n)

/-- next_value (recapture.c 159-165): reads one sample from the ring; a short
read (empty ring) yields the sentinel -1. -/
def next_value : List Int → Int × List Int
  | [] => (-1, [])
  | x :: xs => (x, xs)

/-- write_value (recapture.c 188-194): writes one sample into the ring,
returning -1 when the ring has no room. -/
def write_value (cap : Nat) (sample : Int) (ring : List Int) : List Int × Int :=
  if ring.length < cap then (ring ++ [sample], 0) else (ring, -1)

/-- buffers[k][i] = v. -/
def setSample (buffers : List (List Int)) (k i : Nat) (v : Int) : List (List Int) :=
  buffers.set k ((buffers.getD k []).set i v)

/-- Inner loop of uninterleave (recapture.c 145-153): for one frame i, read
one sample per channel k from the ring into buffers[k][i]; a -1 sample stops
everything with status -1. -/
def uninterleaveRow : List Nat → Nat → List (List Int) → List Int →
    List (List Int) × List Int × Int
  | [], _i, buffers, ring => (buffers, ring, 0)
  | k :: rest, i, buffers, ring =>
    let p := next_value ring
    if p.1 = -1 then (buffers, p.2, -1)
    else uninterleaveRow rest i (setSample buffers k i p.1) p.2

/-- Outer loop of uninterleave (recapture.c 144-155): frames in order, stop on
the first failed row. -/
def uninterleaveGo (len : Nat) : List Nat → List (List Int) → List Int →
    List (List Int) × List Int × Int
  | [], buffers, ring => (buffers, ring, 0)
  | i :: rest, buffers, ring =>
    let r := uninterleaveRow (List.range len) i buffers ring
    if r.2.2 ≠ 0 then r
    else uninterleaveGo len rest r.1 r.2.1

/-- uninterleave (recapture.c 139-157): move count frames of len channels from
the ring into the per-channel buffers; returns the updated buffers, the rest
of the ring, and the status. -/
def uninterleave (buffers : List (List Int)) (len count : Nat) (ring : List Int) :
    List (List Int) × List Int × Int :=
  uninterleaveGo len (List.range count) buffers ring

/-- Inner loop of interleave (recapture.c 179-182): one frame i, write
buffers[k][i] for each channel k into the ring, stopping on a full ring. -/
def interleaveRow : List Nat → Nat → List (List Int) → Nat → List Int →
    List Int × Int
  | [], _i, _buffers, _cap, ring => (ring, 0)
  | k :: rest, i, buffers, cap, ring =>
    let r := write_value cap ((buffers.getD k []).getD i 0) ring
    if r.2 ≠ 0 then r
    else interleaveRow rest i buffers cap r.1

/-- Outer loop of interleave (recapture.c 178-184). -/
def interleaveGo (len : Nat) : List Nat → List (List Int) → Nat → List Int →
    List Int × Int
  | [], _buffers, _cap, ring => (ring, 0)
  | i :: rest, buffers, cap, ring =>
    let r := interleaveRow (List.range len) i buffers cap ring
    if r.2 ≠ 0 then r
    else interleaveGo len rest buffers cap r.1

/-- interleave (recapture.c 173-186): move count frames of len channels from
the per-channel buffers into the ring. -/
def interleave (buffers : List (List Int)) (len count : Nat) (cap : Nat)
    (ring : List Int) : List Int × Int :=
  interleaveGo len (List.range count) buffers cap ring

/-- recap_mute (recapture.c 200-205): zero the first count buffers, each of
nframes samples. -/
def recap_mute : List (List Int) → Nat → Nat → List (List Int)
  | bs, 0, _n => bs
  | [], _ + 1, _n => []
  | _b :: bs, c + 1, n => List.replicate n 0 :: recap_mute bs c n

/-- common_thread (recapture.c 234-251): the loop runs the body until a
nonzero status; the thread exit value maps FINISHED to 0 and keeps any other
status. -/
def common_exit (status : Int) : Int :=
  if status = FINISHED then 0 else status

/-- Result of one reader_body invocation: ring and counter state of
reader_info, the shared reading status, the static underfill flag, and the
returned status. -/
structure ReaderOut where
  ring : List Int
  underruns : Nat
  reading : Status
  underfill : Nat
  status : Int
deriving Repr, DecidableEq

/-- reader_body (recapture.c 305-332).  space is the free ring space the
io_thread wrapper measured (in samples here); decoded is what
sf_readf_float returned, frame_count = decoded.length / cc_r frames.
A zero read marks reading DONE and finishes; any nonzero read while the
underfill flag is set is EIO; otherwise the data is pushed into the ring
(an incomplete push counts a reader underrun), reading becomes RUNNING, and
a short read with the flag clear sets the flag. -/
def reader_body (cc_r cap_r : Nat) (ring : List Int) (underruns : Nat)
    (reading : Status) (underfill : Nat) (space : Nat) (decoded : List Int) :
    ReaderOut :=
  let nframes := space / cc_r
  let frame_count := decoded.length / cc_r
  if frame_count = 0 then
    ⟨ring, underruns, Status.DONE, underfill, FINISHED⟩
  else if 0 < underfill then
    ⟨ring, underruns, reading, underfill, eioCode⟩
  else
    let size := frame_count * cc_r
    let w := rb_write cap_r ring (decoded.take size)
    let underruns' := if w.2 < size then underruns + 1 else underruns
    let underfill' := if frame_count < nframes ∧ underfill = 0 then underfill + 1
                      else underfill
    ⟨w.1, underruns', Status.RUNNING, underfill', 0⟩

/-- The reader loop as common_thread drives it over a sequence of
environment observations (free ring space seen by io_thread, data decoded
by sf_readf_float): iterate reader_body until a nonzero status, then exit
with common_exit of it; none if the sequence ends with the loop still
running. -/
def reader_results (cc_r cap_r : Nat) : List Int → Nat → Status → Nat →
    List (Nat × List Int) → Option Int
  | _ring, _ur, _rd, _uf, [] => none
  | ring, ur, rd, uf, (space, d) :: rest =>
    let o := reader_body cc_r cap_r ring ur rd uf space d
    if o.status = 0 then reader_results cc_r cap_r o.ring o.underruns o.reading o.underfill rest
    else some (common_exit o.status)

/-- Result of one writer_body invocation. -/
structure WriterOut where
  ring : List Int
  written : List Int
  nframes : Nat
  status : Int
deriving Repr, DecidableEq

/-- writer_body (recapture.c 338-348): space is everything readable in the
capture ring; jack_ringbuffer_read consumes all of it, sf_writef_float is
given nframes = space / frame_size_w whole frames of it, and the codec
accepting fewer frames than supplied is EIO.  accepted is the frame count
sf_writef_float returns. -/
def writer_body (cc_w : Nat) (ring : List Int) (accepted : Nat) : WriterOut :=
  let space := ring.length
  let nframes := space / cc_w
  let written := ring.take (nframes * cc_w)
  let status := if accepted < nframes then eioCode else 0
  ⟨[], written, nframes, status⟩

/-- One iteration of the writer thread: io_thread (recapture.c 259-272)
specialised by writer_can_run, writer_is_done, writer_space and writer_body
(recapture.c 283-301, 338-348). -/
def writer_iter (cfg : Config) (s : Sys) (accepted : Nat) : Sys × Int :=
  if s.st.can_capture then
    let space := s.writer_ring.length
    if s.writer_ring.length = 0 ∧ s.st.playing = Status.DONE then
      (s, FINISHED)
    else if 0 < space then
      let o := writer_body cfg.cc_w s.writer_ring accepted
      ({s with writer_ring := o.ring}, o.status)
    else (s, 0)
  else (s, 0)

/-- One iteration of the reader thread: io_thread specialised by
reader_can_run, reader_is_done (always false), reader_space and
reader_body. -/
def reader_iter (cfg : Config) (s : Sys) (decoded : List Int) : Sys × Int :=
  if s.st.can_read then
    let space := cfg.ring_size - s.reader_ring.length
    if 0 < space then
      let o := reader_body cfg.cc_r cfg.ring_size s.reader_ring s.reader_underruns
        s.st.reading s.underfill space decoded
      ({ s with
          reader_ring := o.ring
          reader_underruns := o.underruns
          underfill := o.underfill
          st := {s.st with reading := o.reading} }, o.status)
    else (s, 0)
  else (s, 0)

/-- One wake-up of the reader thread inside common_thread: run the iteration;
a nonzero status ends the loop and records the thread exit value.  After the
thread has exited, further wake-ups do nothing. -/
def stepReader (cfg : Config) (s : Sys) (decoded : List Int) : Sys :=
  match s.readerExit with
  | some _ => s
  | none =>
    let r := reader_iter cfg s decoded
    if r.2 = 0 then r.1 else {r.1 with readerExit := some (common_exit r.2)}

/-- One wake-up of the writer thread inside common_thread. -/
def stepWriter (cfg : Config) (s : Sys) (accepted : Nat) : Sys :=
  match s.writerExit with
  | some _ => s
  | none =>
    let r := writer_iter cfg s accepted
    if r.2 = 0 then r.1 else {r.1 with writerExit := some (common_exit r.2)}

/-- Observable data-movement events of one process invocation, in program
order: dequeue is the uninterleave of playback samples out of the reader
ring into the output port buffers, enqueue is the interleave of the input
port buffers into the writer ring, mute is recap_mute on the output
buffers. -/
inductive Ev
  | dequeue
  | enqueue
  | mute
deriving Repr, DecidableEq

/-- process (recapture.c 388-455), the jack realtime callback: given the
engine frame count and the per-cycle contents of the input and output port
buffers, returns the new system state, the output buffer contents after the
callback, and the ordered list of data-movement events. -/
def process (cfg : Config) (nframes : Nat) (inBufs outBufs : List (List Int))
    (s : Sys) : Sys × List (List Int) × List Ev :=
  if !s.st.can_play || !s.st.can_capture || !s.st.can_read then
    (s, outBufs, [])
  else if s.st.playing ≠ Status.DONE ∧ s.st.reading ≠ Status.IDLE then
    if s.reader_ring.length = 0 ∧ s.st.reading = Status.DONE then
      let s1 := {s with st := {s.st with playing := Status.DONE}}
      let out1 := recap_mute outBufs cfg.cc_r nframes
      let r := interleave inBufs cfg.cc_w nframes cfg.ring_size s1.writer_ring
      let s2 := { s1 with
          writer_ring := r.1
          overruns := if r.2 ≠ 0 then s1.overruns + 1 else s1.overruns }
      (s2, out1, [Ev.mute, Ev.enqueue])
    else
      let u := uninterleave outBufs cfg.cc_r nframes s.reader_ring
      let s1 := { s with
          reader_ring := u.2.1
          proc_underruns := if u.2.2 ≠ 0 then s.proc_underruns + 1
                            else s.proc_underruns }
      let r := interleave inBufs cfg.cc_w nframes cfg.ring_size s1.writer_ring
      let s2 := { s1 with
          writer_ring := r.1
          overruns := if r.2 ≠ 0 then s1.overruns + 1 else s1.overruns }
      (s2, u.1, [Ev.dequeue, Ev.enqueue])
  else
    (s, outBufs, [])

/-- The interleaved execution of the three actors: a reader wake-up with some
decoded data, a writer wake-up with some codec acceptance, or one realtime
cycle with some engine-provided buffers. -/
inductive Step (cfg : Config) : Sys → Sys → Prop
  | reader (s : Sys) (decoded : List Int) : Step cfg s (stepReader cfg s decoded)
  | writer (s : Sys) (accepted : Nat) : Step cfg s (stepWriter cfg s accepted)
  | proc (s : Sys) (nframes : Nat) (inBufs outBufs : List (List Int)) :
      Step cfg s ((process cfg nframes inBufs outBufs s).1)

/-- The session state right after run_client (recapture.c 585-590) has set
the three permission flags: everything else is still zero-initialized from
main (recapture.c 679-690). -/
def initSys : Sys where
  st := { can_play := true, can_capture := true, can_read := true,
          reading := Status.IDLE, playing := Status.IDLE }
  reader_ring := []
  reader_underruns := 0
  writer_ring := []
  proc_underruns := 0
  overruns := 0
  underfill := 0
  readerExit := none
  writerExit := none

/-- The SF_INFO sf_open sees for the source file. -/
structure SfInfoRead where
  samplerate : Int
  channels : Nat
deriving Repr, DecidableEq

/-- setup_reader_thread (recapture.c 483-504), the part the claims are about:
channel_count_r and frame_size_r are taken from the opened file, and the
sample-rate validation cancels both worker threads (cancel_process,
recapture.c 210-213) exactly when the file samplerate differs from the
constant 44100.  Returns (channel_count_r, frame_size_r, cancels). -/
def setup_reader_check (sf : SfInfoRead) : Nat × Nat × Bool :=
  (sf.channels, sf.channels * sample_size, decide (sf.samplerate ≠ 44100))

/-- Modelled from the spec words for comparison: the claimed validation would
cancel exactly when the file rate differs from the engine operating rate. -/
def rate_check_claimed (engineRate fileRate : Int) : Bool :=
  decide (fileRate ≠ engineRate)

/-- SF_FORMAT_WAV of sndfile.h. -/
def SF_FORMAT_WAV : Nat := 0x010000

/-- SF_FORMAT_PCM_32 of sndfile.h: signed 32 bit integer PCM. -/
def SF_FORMAT_PCM_32 : Nat := 0x0004

/-- SF_FORMAT_FLOAT of sndfile.h: 32 bit floating point. -/
def SF_FORMAT_FLOAT : Nat := 0x0006

/-- The SF_INFO handed to sf_open for the destination file. -/
structure SfInfoWrite where
  samplerate : Nat
  channels : Nat
  format : Nat
deriving Repr, DecidableEq

/-- setup_writer_thread (recapture.c 460-466): the destination SF_INFO is the
jack sample rate, channel_count_w channels, and WAV with 32 bit PCM. -/
def setup_writer_sfinfo (engineRate : Nat) (channel_count_w : Nat) : SfInfoWrite :=
  ⟨engineRate, channel_count_w, SF_FORMAT_WAV ||| SF_FORMAT_PCM_32⟩

/-- main (recapture.c 704): channel_count_w = array_length(in_port_names). -/
def channel_count_w_of (in_port_names : List String) : Nat :=
  in_port_names.length

/-- run_io_thread (recapture.c 510-521): a cancelled thread joins with
PTHREAD_CANCELED and is reported as EPIPE, otherwise the thread exit value is
returned. -/
def run_io_thread (cancelled : Bool) (exitVal : Int) : Int :=
  if cancelled then epipeCode else exitVal

/-- run_client status aggregation (recapture.c 585-608): other_status becomes
EPIPE when overruns or underruns were counted, and the returned value is the
C logical OR of the three statuses. -/
def run_client (reader_status writer_status : Int) (overruns underruns : Nat) :
    Int :=
  let other_status : Int := if 0 < overruns then epipeCode else 0
  let other_status : Int := if 0 < underruns then epipeCode else other_status
  if reader_status ≠ 0 ∨ writer_status ≠ 0 ∨ other_status ≠ 0 then 1 else 0

/-- The reader thread is alive (its loop has not exited) only while reading
has not reached DONE: reader_body sets reading to DONE exactly when it also
returns FINISHED, which ends the loop. -/
def aliveInv (s : Sys) : Prop :=
  s.readerExit = none → s.st.reading ≠ Status.DONE

/-! ## Theorems -/

/-- Claim C6, counterexample: the claim says the source sample rate is
validated to match the engine operating rate exactly.  With the engine
running at 48000 and a 48000 source file (an exact match), the code still
cancels both workers, because setup_reader_thread compares against the
constant 44100 (recapture.c 495), not against jack_get_sample_rate: the
code check and the spec-modelled check disagree at this input. -/
theorem rate_check_not_engine_rate :
    (setup_reader_check ⟨48000, 2⟩).2.2 = true
    ∧ rate_check_claimed 48000 48000 = false := by
  decide

/-- Claim C6 (amended): during source-file worker setup the sample rate of
the source file is validated against the fixed rate 44100, not against the
engine rate; on mismatch with 44100 the session immediately cancels both
workers, and channel_count_r and frame_size_r are taken from the opened
file. -/
theorem rate_check_is_44100 (sf : SfInfoRead) :
    ((setup_reader_check sf).2.2 = true ↔ sf.samplerate ≠ 44100)
    ∧ (setup_reader_check sf).1 = sf.channels
    ∧ (setup_reader_check sf).2.1 = sf.channels * sample_size := by
  refine ⟨?_, rfl, rfl⟩
  simp [setup_reader_check]

/-- Claim C7, counterexample: the destination SF_INFO format requested by
setup_writer_thread is WAV with 32 bit integer PCM, not the claimed 32 bit
floating point format. -/
theorem dest_format_not_float :
    (setup_writer_sfinfo 44100 2).format = SF_FORMAT_WAV ||| SF_FORMAT_PCM_32
    ∧ (setup_writer_sfinfo 44100 2).format ≠ SF_FORMAT_WAV ||| SF_FORMAT_FLOAT := by
  decide

/-- Claim C7 (amended): the destination file is opened as a multichannel WAV
whose channel count equals the number of input port connections requested
(channel_count_w = array_length(in_port_names)) and whose sample rate equals
the engine operating rate, but in 32 bit signed integer PCM sample format,
not 32 bit floating point. -/
theorem dest_sfinfo_fields (engineRate : Nat) (names : List String) :
    (setup_writer_sfinfo engineRate (channel_count_w_of names)).samplerate = engineRate
    ∧ (setup_writer_sfinfo engineRate (channel_count_w_of names)).channels = names.length
    ∧ (setup_writer_sfinfo engineRate (channel_count_w_of names)).format
        = SF_FORMAT_WAV ||| SF_FORMAT_PCM_32
    ∧ (setup_writer_sfinfo engineRate (channel_count_w_of names)).format
        ≠ SF_FORMAT_WAV ||| SF_FORMAT_FLOAT := by
  refine ⟨rfl, rfl, rfl, ?_⟩
  show SF_FORMAT_WAV ||| SF_FORMAT_PCM_32 ≠ SF_FORMAT_WAV ||| SF_FORMAT_FLOAT
  decide

/-- Claim C8, counterexample: the claim says the distinct nonzero session
status codes are ordered I/O error over cancellation over overrun/underrun,
with cancellation message-only rather than numeric.  In the code run_client
returns a C logical OR, so a worker I/O error, a pure overrun failure and a
cancelled worker all collapse to the same session status 1, which is not the
I/O error code; and run_io_thread turns cancellation into the numeric EPIPE
status (recapture.c 514-515, 607). -/
theorem exit_codes_collapse :
    run_client eioCode 0 0 0 = 1
    ∧ run_client 0 0 1 0 = 1
    ∧ run_client (run_io_thread true 0) 0 0 0 = 1
    ∧ (1 : Int) ≠ eioCode
    ∧ run_io_thread true 0 = epipeCode := by
  decide

/-- Claim C8 (amended): after both workers finish the session status is the
single generic failure value 1 whenever any overruns or underruns were
counted or either worker finished with a nonzero status (I/O error or
cancellation), and 0 otherwise; a cancelled worker joins as the numeric
EPIPE status, and no priority ordering among distinct codes survives the
logical OR in run_client. -/
theorem session_status_boolean (rs ws : Int) (o u : Nat) :
    run_client rs ws o u = (if rs ≠ 0 ∨ ws ≠ 0 ∨ 0 < o ∨ 0 < u then 1 else 0)
    ∧ (∀ v : Int, run_io_thread true v = epipeCode)
    ∧ (∀ v : Int, run_io_thread false v = v) := by
  refine ⟨?_, fun v => rfl, fun v => rfl⟩
  unfold run_client
  have h32 : epipeCode ≠ 0 := by decide
  split_ifs <;> simp_all

/-- Claim C5: the writer worker terminates normally (loop status FINISHED,
thread exit value 0) exactly when its termination test observes the capture
ring empty and playing DONE; in any iteration that instead fails, the
failure is the I/O error EIO, the ring has been fully drained, and the codec
accepted fewer frames than the whole frames supplied. -/
theorem writer_termination (cfg : Config) (s : Sys) (accepted : Nat) :
    ((writer_iter cfg s accepted).2 = FINISHED ↔
      s.st.can_capture = true ∧ s.writer_ring = [] ∧ s.st.playing = Status.DONE)
    ∧ common_exit FINISHED = 0
    ∧ ((writer_iter cfg s accepted).2 ≠ FINISHED →
       (writer_iter cfg s accepted).2 ≠ 0 →
        (writer_iter cfg s accepted).2 = eioCode
        ∧ (writer_iter cfg s accepted).1.writer_ring = []
        ∧ accepted < s.writer_ring.length / cfg.cc_w) := by
  simp only [writer_iter, writer_body]
  split_ifs with hcap hdone hpos hacc
  · refine ⟨⟨fun _ => ⟨by simpa using hcap, List.length_eq_zero.mp hdone.1, hdone.2⟩,
      fun _ => rfl⟩, by decide, fun h1 _ => absurd rfl h1⟩
  · refine ⟨⟨fun h => by simp [eioCode, FINISHED] at h, ?_⟩, by decide,
      fun _ _ => ⟨rfl, rfl, hacc⟩⟩
    rintro ⟨-, hring, hplay⟩
    exact absurd ⟨by simp [hring], hplay⟩ hdone
  · refine ⟨⟨fun h => by simp [FINISHED] at h, ?_⟩, by decide,
      fun _ h2 => absurd rfl h2⟩
    rintro ⟨-, hring, hplay⟩
    exact absurd ⟨by simp [hring], hplay⟩ hdone
  · refine ⟨⟨fun h => by simp [FINISHED] at h, ?_⟩, by decide,
      fun _ h2 => absurd rfl h2⟩
    rintro ⟨-, hring, hplay⟩
    exact absurd ⟨by simp [hring], hplay⟩ hdone
  · refine ⟨⟨fun h => by simp [FINISHED] at h, ?_⟩, by decide,
      fun _ h2 => absurd rfl h2⟩
    rintro ⟨hcap2, -, -⟩
    exact absurd hcap2 (by simpa using hcap)

/-- Claim C5 witness: writer_termination applied at concrete inputs.  With an
empty capture ring and playing DONE the iteration returns FINISHED; with two
samples of one 2-channel frame in the ring and a codec that accepts 0 of the
1 supplied frame, the iteration fails with EIO having drained the ring. -/
theorem writer_termination_witness :
    (writer_iter ⟨1, 2, 8⟩
        { initSys with st := { initSys.st with playing := Status.DONE } } 0).2 = FINISHED
    ∧ (writer_iter ⟨1, 2, 8⟩ { initSys with writer_ring := [1, 2] } 0).2 = eioCode :=
  ⟨(writer_termination ⟨1, 2, 8⟩
      { initSys with st := { initSys.st with playing := Status.DONE } } 0).1.mpr
      ⟨rfl, rfl, rfl⟩,
   ((writer_termination ⟨1, 2, 8⟩ { initSys with writer_ring := [1, 2] } 0).2.2
      (by decide) (by decide)).1⟩

/-- Claim C10: in any writer_body invocation (reached by writer_iter whenever
the worker may run and readable data exists), all readable samples are
removed from the capture ring, only the whole frames floor(space divided by
the frame size) of them are handed to the codec, and the trailing partial
frame, shorter than one frame, is dropped without being written. -/
theorem writer_partial_frame_discarded :
    (∀ (cc_w : Nat) (ring : List Int) (accepted : Nat), 0 < cc_w →
      (writer_body cc_w ring accepted).ring = []
      ∧ (writer_body cc_w ring accepted).nframes = ring.length / cc_w
      ∧ (writer_body cc_w ring accepted).written
          = ring.take (ring.length / cc_w * cc_w)
      ∧ ring = (writer_body cc_w ring accepted).written
          ++ ring.drop (ring.length / cc_w * cc_w)
      ∧ (ring.drop (ring.length / cc_w * cc_w)).length = ring.length % cc_w
      ∧ (ring.drop (ring.length / cc_w * cc_w)).length < cc_w
      ∧ (writer_body cc_w ring accepted).written.length
          = ring.length / cc_w * cc_w)
    ∧ (∀ (cfg : Config) (s : Sys) (accepted : Nat), s.st.can_capture = true →
        s.writer_ring ≠ [] → (writer_iter cfg s accepted).1.writer_ring = []) := by
  constructor
  · intro cc_w ring accepted hcc
    have hdm := Nat.div_add_mod ring.length cc_w
    have hle : ring.length / cc_w * cc_w ≤ ring.length := Nat.div_mul_le_self _ _
    refine ⟨rfl, rfl, rfl, (List.take_append_drop _ _).symm, ?_, ?_, ?_⟩
    · rw [List.length_drop]
      have : cc_w * (ring.length / cc_w) = ring.length / cc_w * cc_w :=
        Nat.mul_comm _ _
      omega
    · rw [List.length_drop]
      have : cc_w * (ring.length / cc_w) = ring.length / cc_w * cc_w :=
        Nat.mul_comm _ _
      have hm : ring.length % cc_w < cc_w := Nat.mod_lt _ hcc
      omega
    · show (ring.take (ring.length / cc_w * cc_w)).length = _
      rw [List.length_take]
      omega
  · intro cfg s accepted hcap hne
    have hpos : 0 < s.writer_ring.length := List.length_pos.mpr hne
    simp only [writer_iter, writer_body]
    split_ifs <;> simp_all

/-- Claim C10 witness: writer_partial_frame_discarded at a ring of five
samples with two channels: two whole frames are written and the fifth
sample, a partial frame, is discarded. -/
theorem writer_partial_frame_discarded_witness :
    (writer_body 2 [1, 2, 3, 4, 5] 2).ring = []
    ∧ (writer_body 2 [1, 2, 3, 4, 5] 2).written
        = ([1, 2, 3, 4, 5] : List Int).take (5 / 2 * 2) :=
  ⟨(writer_partial_frame_discarded.1 2 [1, 2, 3, 4, 5] 2 (by decide)).1,
   (writer_partial_frame_discarded.1 2 [1, 2, 3, 4, 5] 2 (by decide)).2.2.1⟩

set_option maxRecDepth 8192 in
/-- Claim C2, counterexample: the claim says the reader fails with an I/O
error only when a read after the underfill flag is set again returns
fewer-than-requested frames.  In the code any nonzero read after the flag is
set is EIO (recapture.c 314-316): here the flag is set and the next read
returns the full 512 requested frames, which is not fewer than requested,
yet the status is EIO. -/
theorem reader_full_read_after_underfill_errors :
    (reader_body 1 4096 [] 0 Status.RUNNING 1 512 (List.replicate 512 3)).status
      = eioCode
    ∧ ¬ ((List.replicate 512 (3 : Int)).length / 1 < 512 / 1) := by
  decide

set_option maxRecDepth 8192 in
/-- Claim C2 (amended): a chunk read decoding zero frames always ends the
reader normally (status FINISHED, reading DONE, thread exit 0) even when the
underfill flag is set; a short nonzero read with the flag clear sets the
flag and continues without error; and the reader fails with EIO exactly when
a read after the flag is set decodes a nonzero frame count, whether or not
it is fewer than requested.  The decode sequence [512, 512, 300, 0] against
512-frame requests ends normally and [512, 300, 250] ends with EIO after the
third read. -/
theorem reader_underfill_policy :
    (∀ (cc cap : Nat) (ring : List Int) (ur : Nat) (rd : Status) (uf space : Nat)
        (d : List Int), d.length / cc = 0 →
        (reader_body cc cap ring ur rd uf space d).status = FINISHED
        ∧ (reader_body cc cap ring ur rd uf space d).reading = Status.DONE
        ∧ common_exit (reader_body cc cap ring ur rd uf space d).status = 0)
    ∧ (∀ (cc cap : Nat) (ring : List Int) (ur : Nat) (rd : Status) (space : Nat)
        (d : List Int), d.length / cc ≠ 0 → d.length / cc < space / cc →
        (reader_body cc cap ring ur rd 0 space d).status = 0
        ∧ (reader_body cc cap ring ur rd 0 space d).underfill = 1)
    ∧ (∀ (cc cap : Nat) (ring : List Int) (ur : Nat) (rd : Status) (uf space : Nat)
        (d : List Int),
        ((reader_body cc cap ring ur rd uf space d).status = eioCode ↔
          d.length / cc ≠ 0 ∧ 0 < uf))
    ∧ reader_results 1 4096 [] 0 Status.IDLE 0
        [(512, List.replicate 512 7), (512, List.replicate 512 7),
         (512, List.replicate 300 7), (512, [])] = some 0
    ∧ reader_results 1 4096 [] 0 Status.IDLE 0
        [(512, List.replicate 512 7), (512, List.replicate 300 7),
         (512, List.replicate 250 7)] = some eioCode := by
  refine ⟨?_, ?_, ?_, by decide, by decide⟩
  · intro cc cap ring ur rd uf space d h
    simp only [reader_body]
    rw [if_pos h]
    exact ⟨rfl, rfl, rfl⟩
  · intro cc cap ring ur rd space d h hlt
    simp only [reader_body]
    rw [if_neg h, if_neg (by omega)]
    exact ⟨rfl, by simp [hlt]⟩
  · intro cc cap ring ur rd uf space d
    simp only [reader_body]
    split_ifs with h1 h2 <;> simp_all [eioCode, FINISHED]

/-- Claim C2 witness: reader_underfill_policy applied concretely: a zero
read with the underfill flag already at 3 still ends the reader normally
with reading DONE. -/
theorem reader_underfill_policy_witness :
    (reader_body 1 8 [] 0 Status.RUNNING 3 8 []).status = FINISHED
    ∧ (reader_body 1 8 [] 0 Status.RUNNING 3 8 []).reading = Status.DONE :=
  ⟨(reader_underfill_policy.1 1 8 [] 0 Status.RUNNING 3 8 [] (by decide)).1,
   (reader_underfill_policy.1 1 8 [] 0 Status.RUNNING 3 8 [] (by decide)).2.1⟩

/-- recap_mute zeroes every buffer when count equals the number of
buffers, as in the process callback where count = channel_count_r = the
number of registered output ports. -/
theorem recap_mute_full (bs : List (List Int)) (n : Nat) :
    recap_mute bs bs.length n = List.replicate bs.length (List.replicate n 0) := by
  induction bs with
  | nil => rfl
  | cons b bs ih => simp [recap_mute, List.replicate_succ, ih]

/-- Claim C1, counterexample: the claim says every process invocation after
playing reached DONE zero-fills the output buffers.  Here playing is DONE
and the cycle leaves the engine-provided output buffer contents [[5]]
untouched, which is not entirely zero: recap_mute runs only in the single
cycle that sets playing to DONE (recapture.c 416, 422-424); afterwards the
whole playback block is skipped. -/
theorem output_not_zeroed_after_done :
    (process ⟨1, 1, 8⟩ 1 [[0]] [[5]]
        { initSys with st := { initSys.st with playing := Status.DONE } }).2.1 = [[5]]
    ∧ ¬ (∀ b ∈ (process ⟨1, 1, 8⟩ 1 [[0]] [[5]]
          { initSys with st := { initSys.st with playing := Status.DONE } }).2.1,
        ∀ x ∈ b, x = (0 : Int)) := by
  decide

/-- Claim C1 (amended): the processor zero-fills all output port buffers
exactly in the transition cycle in which it sets playing to DONE (playback
ring empty and reading DONE); in every later invocation, playing being
already DONE makes the callback write nothing at all to the output buffers,
which therefore keep whatever contents the engine provided that cycle. -/
theorem mute_only_at_transition :
    (∀ (cfg : Config) (n : Nat) (ib ob : List (List Int)) (s : Sys),
        s.st.playing = Status.DONE → process cfg n ib ob s = (s, ob, []))
    ∧ (∀ (cfg : Config) (n : Nat) (ib ob : List (List Int)) (s : Sys),
        s.st.can_play = true → s.st.can_capture = true → s.st.can_read = true →
        s.st.playing ≠ Status.DONE → s.st.reading = Status.DONE →
        s.reader_ring = [] → ob.length = cfg.cc_r →
        (process cfg n ib ob s).2.1
            = List.replicate cfg.cc_r (List.replicate n 0)
          ∧ (process cfg n ib ob s).1.st.playing = Status.DONE) := by
  constructor
  · intro cfg n ib ob s h
    simp only [process]
    split_ifs with h1 h2 <;> simp_all
  · intro cfg n ib ob s hp hc hr hplay hread hring hoblen
    have h1 : (!s.st.can_play || !s.st.can_capture || !s.st.can_read) = false := by
      rw [hp, hc, hr]; rfl
    have hri : s.st.reading ≠ Status.IDLE := by rw [hread]; simp
    have hm : s.reader_ring.length = 0 ∧ s.st.reading = Status.DONE :=
      ⟨by rw [hring]; rfl, hread⟩
    have h2 : s.st.playing ≠ Status.DONE ∧ s.st.reading ≠ Status.IDLE :=
      ⟨hplay, hri⟩
    simp only [process, h1, Bool.false_eq_true, if_false, if_pos h2, if_pos hm]
    refine ⟨?_, trivial⟩
    rw [← hoblen]
    exact recap_mute_full ob n

/-- Claim C1 witness: mute_only_at_transition applied concretely.  In the
transition cycle (empty ring, reading DONE, two output channels of three
frames) the outputs come back fully zeroed; in a later cycle with playing
already DONE the callback is the identity on its state and buffers. -/
theorem mute_only_at_transition_witness :
    process ⟨1, 1, 8⟩ 1 [[0]] [[5]]
        { initSys with st := { initSys.st with playing := Status.DONE } }
      = ({ initSys with st := { initSys.st with playing := Status.DONE } }, [[5]], [])
    ∧ (process ⟨2, 1, 8⟩ 3 [[4, 4, 4]] [[9, 9, 9], [8, 8, 8]]
          { initSys with st := { initSys.st with reading := Status.DONE } }).2.1
        = List.replicate 2 (List.replicate 3 0) :=
  ⟨mute_only_at_transition.1 ⟨1, 1, 8⟩ 1 [[0]] [[5]] _ rfl,
   (mute_only_at_transition.2 ⟨2, 1, 8⟩ 3 [[4, 4, 4]] [[9, 9, 9], [8, 8, 8]]
      { initSys with st := { initSys.st with reading := Status.DONE } }
      rfl rfl rfl (by decide) rfl rfl rfl).1⟩

/-- Claim C3, counterexample: the claim says captured input is enqueued into
the capture ring before the playback samples are dequeued.  In a concrete
data-moving cycle the event trace of the callback is dequeue followed by
enqueue, and in that trace no enqueue occurrence precedes a dequeue
occurrence, contradicting the claimed order: the code uninterleaves playback
(recapture.c 426) before interleaving capture (recapture.c 436). -/
theorem capture_not_enqueued_first :
    (process ⟨1, 1, 8⟩ 1 [[4]] [[9]]
        { initSys with st := { initSys.st with reading := Status.RUNNING }, reader_ring := [3] }).2.2
      = [Ev.dequeue, Ev.enqueue]
    ∧ ∀ i j : Fin 2, [Ev.dequeue, Ev.enqueue].get i = Ev.enqueue →
        [Ev.dequeue, Ev.enqueue].get j = Ev.dequeue → ¬ (i.val < j.val) := by
  decide

/-- Claim C3 (amended): within every realtime cycle that moves data, the
playback samples are dequeued from the playback ring into the output port
buffers first, and the captured input samples are interleaved and enqueued
into the capture ring second; the order is the reverse of the claimed one
(the two rings are independent, so data integrity is unaffected). -/
theorem playback_dequeued_before_capture (cfg : Config) (n : Nat)
    (ib ob : List (List Int)) (s : Sys)
    (hp : s.st.can_play = true) (hc : s.st.can_capture = true)
    (hr : s.st.can_read = true) (hplay : s.st.playing ≠ Status.DONE)
    (hread : s.st.reading ≠ Status.IDLE)
    (hnm : ¬ (s.reader_ring.length = 0 ∧ s.st.reading = Status.DONE)) :
    (process cfg n ib ob s).2.2 = [Ev.dequeue, Ev.enqueue] := by
  have h1 : (!s.st.can_play || !s.st.can_capture || !s.st.can_read) = false := by
    rw [hp, hc, hr]; rfl
  have h2 : s.st.playing ≠ Status.DONE ∧ s.st.reading ≠ Status.IDLE :=
    ⟨hplay, hread⟩
  simp only [process, h1, Bool.false_eq_true, if_false, if_pos h2, if_neg hnm]

/-- Claim C3 witness: playback_dequeued_before_capture at a concrete cycle
with one playback sample available and one input channel. -/
theorem playback_dequeued_before_capture_witness :
    (process ⟨1, 1, 8⟩ 1 [[4]] [[9]]
        { initSys with st := { initSys.st with reading := Status.RUNNING }, reader_ring := [3] }).2.2
      = [Ev.dequeue, Ev.enqueue] :=
  playback_dequeued_before_capture ⟨1, 1, 8⟩ 1 [[4]] [[9]] _
    rfl rfl rfl (by decide) (by decide) (by decide)

/-- If the ring holds clean samples and then a -1 before the row is filled,
uninterleaveRow stops at the -1 with status -1, consuming exactly the clean
prefix and the -1 and leaving the rest of the ring unread. -/
theorem uninterleaveRow_hit (ks : List Nat) (i : Nat) (buffers : List (List Int))
    (pre post : List Int) (hpre : ∀ x ∈ pre, x ≠ -1)
    (hlen : pre.length < ks.length) :
    ∃ bufs', uninterleaveRow ks i buffers (pre ++ -1 :: post) = (bufs', post, -1) := by
  induction ks generalizing pre buffers with
  | nil => simp at hlen
  | cons k rest ih =>
    cases pre with
    | nil =>
      exact ⟨buffers, by simp [uninterleaveRow, next_value]⟩
    | cons p ps =>
      have hp : p ≠ -1 := hpre p (by simp)
      have hstep : uninterleaveRow (k :: rest) i buffers ((p :: ps) ++ -1 :: post)
          = uninterleaveRow rest i (setSample buffers k i p) (ps ++ -1 :: post) := by
        simp [uninterleaveRow, next_value, hp]
      rw [hstep]
      exact ih (setSample buffers k i p) ps (fun x hx => hpre x (by simp [hx]))
        (by simpa using Nat.lt_of_succ_lt_succ (by simpa using hlen))

/-- A row whose samples are all clean and exactly as many as the channels
completes with status 0, consuming exactly those samples. -/
theorem uninterleaveRow_clean (ks : List Nat) (i : Nat) (buffers : List (List Int))
    (samples rest' : List Int) (hlen : samples.length = ks.length)
    (hs : ∀ x ∈ samples, x ≠ -1) :
    ∃ bufs', uninterleaveRow ks i buffers (samples ++ rest') = (bufs', rest', 0) := by
  induction ks generalizing samples buffers with
  | nil =>
    have : samples = [] := List.eq_nil_of_length_eq_zero (by simpa using hlen)
    subst this
    exact ⟨buffers, by simp [uninterleaveRow]⟩
  | cons k rest ih =>
    cases samples with
    | nil => simp at hlen
    | cons p ps =>
      have hp : p ≠ -1 := hs p (by simp)
      have hstep : uninterleaveRow (k :: rest) i buffers ((p :: ps) ++ rest')
          = uninterleaveRow rest i (setSample buffers k i p) (ps ++ rest') := by
        simp [uninterleaveRow, next_value, hp]
      rw [hstep]
      exact ih (setSample buffers k i p) ps (by simpa using hlen)
        (fun x hx => hs x (by simp [hx]))

/-- Reaching a -1 sample inside the frames uninterleaveGo walks makes the
whole uninterleave stop with status -1, with the ring after the -1 left
unread. -/
theorem uninterleaveGo_hit (len : Nat) (is : List Nat) (buffers : List (List Int))
    (pre post : List Int) (hpre : ∀ x ∈ pre, x ≠ -1)
    (hlen : pre.length < is.length * len) :
    ∃ bufs', uninterleaveGo len is buffers (pre ++ -1 :: post) = (bufs', post, -1) := by
  induction is generalizing pre buffers with
  | nil => simp at hlen
  | cons i rest ih =>
    rw [List.length_cons, Nat.succ_mul] at hlen
    by_cases h : pre.length < len
    · obtain ⟨b', hb⟩ := uninterleaveRow_hit (List.range len) i buffers pre post hpre
        (by simpa using h)
      refine ⟨b', ?_⟩
      simp [uninterleaveGo, hb]
    · push_neg at h
      obtain ⟨b1, hb1⟩ := uninterleaveRow_clean (List.range len) i buffers
        (pre.take len) (pre.drop len ++ -1 :: post)
        (by simp [List.length_take]; omega)
        (fun x hx => hpre x (List.take_subset len pre hx))
      obtain ⟨b2, hb2⟩ := ih b1 (pre.drop len)
        (fun x hx => hpre x (List.drop_subset len pre hx))
        (by rw [List.length_drop]; omega)
      refine ⟨b2, ?_⟩
      have hsplit : pre ++ -1 :: post = pre.take len ++ (pre.drop len ++ -1 :: post) := by
        rw [← List.append_assoc, List.take_append_drop]
      rw [hsplit]
      simp [uninterleaveGo, hb1, hb2]
/-- Claim C9: in a realtime cycle where the playback ring is non-empty and a
dequeued sample is exactly -1, the processor treats the read as a ring
underrun: uninterleave stops filling the remaining frame and channel
positions there, the underrun counter of the process context is
incremented, and the samples after the -1 stay unread in the ring. -/
theorem minus_one_sample_truncates_playback (cfg : Config) (n : Nat)
    (ib ob : List (List Int)) (s : Sys) (pre post : List Int)
    (hp : s.st.can_play = true) (hc : s.st.can_capture = true)
    (hr : s.st.can_read = true) (hplay : s.st.playing ≠ Status.DONE)
    (hread : s.st.reading ≠ Status.IDLE)
    (hring : s.reader_ring = pre ++ -1 :: post)
    (hpre : ∀ x ∈ pre, x ≠ -1) (hlen : pre.length < n * cfg.cc_r) :
    (process cfg n ib ob s).1.proc_underruns = s.proc_underruns + 1
    ∧ (process cfg n ib ob s).1.reader_ring = post := by
  obtain ⟨b', hb⟩ := uninterleaveGo_hit cfg.cc_r (List.range n) ob pre post hpre
    (by simpa using hlen)
  have h1 : (!s.st.can_play || !s.st.can_capture || !s.st.can_read) = false := by
    rw [hp, hc, hr]; rfl
  have h2 : s.st.playing ≠ Status.DONE ∧ s.st.reading ≠ Status.IDLE := ⟨hplay, hread⟩
  have hnm : ¬ (s.reader_ring.length = 0 ∧ s.st.reading = Status.DONE) := by
    rw [hring]; simp
  have hu : uninterleave ob cfg.cc_r n s.reader_ring = (b', post, -1) := by
    unfold uninterleave
    rw [hring]
    exact hb
  simp only [process, h1, Bool.false_eq_true, if_false, if_pos h2, if_neg hnm, hu]
  norm_num
/-- Claim C9 witness: minus_one_sample_truncates_playback at a ring [-1, 2]:
the cycle counts one underrun and leaves the unread sample 2 in the ring. -/
theorem minus_one_sample_truncates_playback_witness :
    (process ⟨1, 1, 64⟩ 1 [[4]] [[9]]
        { initSys with st := { initSys.st with reading := Status.RUNNING }, reader_ring := [-1, 2] }).1.proc_underruns
      = 0 + 1
    ∧ (process ⟨1, 1, 64⟩ 1 [[4]] [[9]]
        { initSys with st := { initSys.st with reading := Status.RUNNING }, reader_ring := [-1, 2] }).1.reader_ring
      = [2] :=
  minus_one_sample_truncates_playback ⟨1, 1, 64⟩ 1 [[4]] [[9]]
    { initSys with st := { initSys.st with reading := Status.RUNNING }, reader_ring := [-1, 2] }
    [] [2] rfl rfl rfl (by decide) (by decide) rfl (by decide) (by decide)

/-- reader_body either marks reading DONE returning FINISHED, marks it
RUNNING returning 0, or leaves it unchanged returning EIO. -/
theorem reader_body_cases (cc cap : Nat) (ring : List Int) (ur : Nat)
    (rd : Status) (uf space : Nat) (d : List Int) :
    ((reader_body cc cap ring ur rd uf space d).reading = Status.DONE
      ∧ (reader_body cc cap ring ur rd uf space d).status = FINISHED)
    ∨ ((reader_body cc cap ring ur rd uf space d).reading = Status.RUNNING
      ∧ (reader_body cc cap ring ur rd uf space d).status = 0)
    ∨ ((reader_body cc cap ring ur rd uf space d).reading = rd
      ∧ (reader_body cc cap ring ur rd uf space d).status = eioCode) := by
  simp only [reader_body]
  split_ifs <;> simp

/-- A reader iteration never changes playing or the recorded exit values. -/
theorem reader_iter_fields (cfg : Config) (s : Sys) (d : List Int) :
    (reader_iter cfg s d).1.st.playing = s.st.playing
    ∧ (reader_iter cfg s d).1.readerExit = s.readerExit := by
  simp only [reader_iter]
  split_ifs <;> simp

/-- A reader iteration that reports status 0 leaves reading away from DONE
provided it was not DONE before: the only branch assigning DONE also
returns FINISHED. -/
theorem reader_iter_zero_reading (cfg : Config) (s : Sys) (d : List Int)
    (hrd : s.st.reading ≠ Status.DONE) (hz : (reader_iter cfg s d).2 = 0) :
    (reader_iter cfg s d).1.st.reading ≠ Status.DONE := by
  simp only [reader_iter] at hz ⊢
  split_ifs at hz ⊢ with h1 h2
  · rcases reader_body_cases cfg.cc_r cfg.ring_size s.reader_ring
      s.reader_underruns s.st.reading s.underfill
      (cfg.ring_size - s.reader_ring.length) d with ⟨_, hs⟩ | ⟨hr, _⟩ | ⟨hr, _⟩
    · simp only [hs] at hz
      exact absurd hz (by decide)
    · simpa using congrArg (fun x => x = Status.DONE) hr ▸ (by simp [hr])
    · simpa [hr] using hrd
  · exact hrd
  · exact hrd

/-- A reader iteration only moves reading forward along the order IDLE,
RUNNING, DONE, as long as reading has not already reached DONE. -/
theorem reader_iter_reading_mono (cfg : Config) (s : Sys) (d : List Int)
    (hrd : s.st.reading ≠ Status.DONE) :
    ordS s.st.reading ≤ ordS (reader_iter cfg s d).1.st.reading := by
  simp only [reader_iter]
  split_ifs with h1 h2
  · rcases reader_body_cases cfg.cc_r cfg.ring_size s.reader_ring
      s.reader_underruns s.st.reading s.underfill
      (cfg.ring_size - s.reader_ring.length) d with ⟨hr, _⟩ | ⟨hr, _⟩ | ⟨hr, _⟩ <;>
      simp only [hr]
    · cases s.st.reading <;> simp [ordS]
    · cases hx : s.st.reading <;> simp_all [ordS]
    · exact le_refl _
  · exact le_refl _
  · exact le_refl _

/-- A reader wake-up never changes playing. -/
theorem stepReader_playing (cfg : Config) (s : Sys) (d : List Int) :
    (stepReader cfg s d).st.playing = s.st.playing := by
  unfold stepReader
  cases hE : s.readerExit with
  | some v => rfl
  | none =>
    by_cases hz : (reader_iter cfg s d).2 = 0
    · simpa [hz] using (reader_iter_fields cfg s d).1
    · simpa [hz] using (reader_iter_fields cfg s d).1

/-- A reader wake-up moves reading only forward. -/
theorem stepReader_reading_mono (cfg : Config) (s : Sys) (d : List Int)
    (h : aliveInv s) : ordS s.st.reading ≤ ordS (stepReader cfg s d).st.reading := by
  unfold stepReader
  cases hE : s.readerExit with
  | some v => exact le_refl _
  | none =>
    have hrd : s.st.reading ≠ Status.DONE := h hE
    by_cases hz : (reader_iter cfg s d).2 = 0
    · simpa [hz] using reader_iter_reading_mono cfg s d hrd
    · simpa [hz] using reader_iter_reading_mono cfg s d hrd

/-- A reader wake-up preserves the invariant that the reader loop is only
alive while reading is not DONE. -/
theorem stepReader_alive (cfg : Config) (s : Sys) (d : List Int)
    (h : aliveInv s) : aliveInv (stepReader cfg s d) := by
  unfold aliveInv at h ⊢
  unfold stepReader
  cases hE : s.readerExit with
  | some v => intro h2; rw [hE] at h2; cases h2
  | none =>
    have hrd : s.st.reading ≠ Status.DONE := h hE
    by_cases hz : (reader_iter cfg s d).2 = 0
    · rw [if_pos hz]
      intro _
      exact reader_iter_zero_reading cfg s d hrd hz
    · rw [if_neg hz]
      intro h2
      simp at h2

/-- A writer wake-up changes neither the shared state nor the reader exit
value. -/
theorem stepWriter_st (cfg : Config) (s : Sys) (a : Nat) :
    (stepWriter cfg s a).st = s.st
    ∧ (stepWriter cfg s a).readerExit = s.readerExit := by
  simp only [stepWriter, writer_iter, writer_body]
  cases hE : s.writerExit with
  | some v => exact ⟨rfl, rfl⟩
  | none => split_ifs <;> simp

/-- The process callback never changes reading or the exit values. -/
theorem proc_fields (cfg : Config) (n : Nat) (ib ob : List (List Int)) (s : Sys) :
    (process cfg n ib ob s).1.st.reading = s.st.reading
    ∧ (process cfg n ib ob s).1.readerExit = s.readerExit := by
  unfold process
  split_ifs <;> simp

/-- The process callback leaves playing unchanged unless it sets it to DONE,
which it does only when the playback ring is empty and reading is DONE. -/
theorem proc_playing (cfg : Config) (n : Nat) (ib ob : List (List Int)) (s : Sys) :
    (process cfg n ib ob s).1.st.playing = s.st.playing
    ∨ ((process cfg n ib ob s).1.st.playing = Status.DONE
        ∧ s.reader_ring = [] ∧ s.st.reading = Status.DONE) := by
  unfold process
  split_ifs with h1 h2 h3
  · exact Or.inl rfl
  · exact Or.inr ⟨rfl, List.length_eq_zero.mp h3.1, h3.2⟩
  · exact Or.inl rfl
  · exact Or.inl rfl

/-- Every step preserves the alive invariant. -/
theorem step_alive (cfg : Config) (s s' : Sys) (hstep : Step cfg s s')
    (h : aliveInv s) : aliveInv s' := by
  cases hstep with
  | reader d => exact stepReader_alive cfg s d h
  | writer a =>
    intro hE
    rw [(stepWriter_st cfg s a).1]
    exact h ((stepWriter_st cfg s a).2 ▸ hE)
  | proc n ib ob =>
    intro hE
    rw [(proc_fields cfg n ib ob s).1]
    exact h ((proc_fields cfg n ib ob s).2 ▸ hE)

/-- Every state reachable from the activated session satisfies the alive
invariant. -/
theorem reachable_alive (cfg : Config) (s : Sys)
    (h : Relation.ReflTransGen (Step cfg) initSys s) : aliveInv s := by
  induction h with
  | refl => intro _ h2; cases h2
  | tail hab hbc ih => exact step_alive cfg _ _ hbc ih

/-- Claim C4: along every execution from the activated session, reading only
moves forward along IDLE, RUNNING, DONE and never backward; playing either
stays what it was or becomes DONE; and the processor sets playing to DONE
only when the playback ring is empty and reading is DONE. -/
theorem status_transitions_forward (cfg : Config) (s s' : Sys)
    (hreach : Relation.ReflTransGen (Step cfg) initSys s)
    (hstep : Step cfg s s') :
    ordS s.st.reading ≤ ordS s'.st.reading
    ∧ (s'.st.playing = s.st.playing ∨ s'.st.playing = Status.DONE)
    ∧ (s.st.playing ≠ Status.DONE → s'.st.playing = Status.DONE →
        s.reader_ring = [] ∧ s.st.reading = Status.DONE) := by
  have halive := reachable_alive cfg s hreach
  cases hstep with
  | reader d =>
    refine ⟨stepReader_reading_mono cfg s d halive,
      Or.inl (stepReader_playing cfg s d), ?_⟩
    intro hne hdone
    rw [stepReader_playing cfg s d] at hdone
    exact absurd hdone hne
  | writer a =>
    refine ⟨by rw [(stepWriter_st cfg s a).1],
      Or.inl (by rw [(stepWriter_st cfg s a).1]), ?_⟩
    intro hne hdone
    rw [(stepWriter_st cfg s a).1] at hdone
    exact absurd hdone hne
  | proc n ib ob =>
    refine ⟨by rw [(proc_fields cfg n ib ob s).1], ?_, ?_⟩
    · rcases proc_playing cfg n ib ob s with h | h
      · exact Or.inl h
      · exact Or.inr h.1
    · intro hne hdone
      rcases proc_playing cfg n ib ob s with h | h
      · rw [h] at hdone
        exact absurd hdone hne
      · exact ⟨h.2.1, h.2.2⟩

/-- Claim C4 witness: status_transitions_forward applied to the initial
state and a reader step that reads zero frames, taking reading from IDLE to
DONE. -/
theorem status_transitions_forward_witness :
    ordS initSys.st.reading ≤ ordS (stepReader ⟨1, 1, 8⟩ initSys []).st.reading
    ∧ ((stepReader ⟨1, 1, 8⟩ initSys []).st.playing = initSys.st.playing
        ∨ (stepReader ⟨1, 1, 8⟩ initSys []).st.playing = Status.DONE)
    ∧ (initSys.st.playing ≠ Status.DONE →
        (stepReader ⟨1, 1, 8⟩ initSys []).st.playing = Status.DONE →
        initSys.reader_ring = [] ∧ initSys.st.reading = Status.DONE) :=
  status_transitions_forward ⟨1, 1, 8⟩ initSys (stepReader ⟨1, 1, 8⟩ initSys [])
    Relation.ReflTransGen.refl (Step.reader initSys [])
end Recapture
